import Mathlib

/-!
Verification of the kiro-openai-gateway credential lifecycle, account pool,
stream parsing and per-request auth cache.

Each definition is a shallow embedding of the corresponding Python function
from the repository (file and symbol named in its doc comment).  Machine time
is modelled in whole seconds as `Int`; optional string fields are `Option
String`, with Python truthiness (`None` and `""` are falsy) made explicit.
-/

/-- Python truthiness of an optional string: `None` and `""` are falsy. -/
def truthy : Option String → Bool
  | none => false
  | some s => !(s == "")

/-- Python `a or b` on optional strings: yields `a` when truthy, else `b`. -/
def pyOr (a b : Option String) : Option String :=
  if truthy a then a else b

/-- One credential record as the refresh code reads it: the fields of the
`KiroAccount` / `LocalAccount` row consulted by `refresh_account_token`
(`src/kiro_gateway/accounts.py`, `src/kiro_gateway/local_storage.py`).
`client_id` / `client_secret` stand for the record's client-credential
attributes (for `LocalAccount` these are properties over `extra_data`). -/
structure KiroAccount where
  id : Int
  auth_method : Option String
  provider : Option String
  access_token : Option String
  refresh_token : Option String
  profile_arn : Option String
  region : Option String
  client_id : Option String
  client_secret : Option String
  expires_at : Option Int
deriving DecidableEq, Repr

/-- `account.region or "us-east-1"` (Python truthiness). -/
def regionOf (a : KiroAccount) : String :=
  match a.region with
  | none => "us-east-1"
  | some r => if r == "" then "us-east-1" else r

/-- Regional AWS SSO-OIDC token endpoint (`accounts.py` line 506). -/
def oidcTokenUrl (region : String) : String :=
  "https://oidc." ++ region ++ ".amazonaws.com/token"

/-- Regional Kiro auth-service refresh endpoint (`accounts.py` line 427). -/
def kiroRefreshUrl (region : String) : String :=
  "https://prod." ++ region ++ ".auth.desktop.kiro.dev/refreshToken"

/-- An upstream POST request: url and JSON body as key/value pairs. -/
structure PostRequest where
  url : String
  body : List (String × String)
deriving DecidableEq, Repr

/-- What a refresh attempt does before reading any HTTP response: either it
issues exactly one POST, or it fails with a message and no upstream call. -/
inductive RefreshDispatch where
  | post (req : PostRequest)
  | failNoUpstream (message : String)
deriving DecidableEq, Repr

/-- Pre-flight and request construction of `AccountManager._refresh_idc_token`
(`accounts.py` lines 499-513): refresh-token and client-credential checks,
then one POST to the regional SSO-OIDC token endpoint. -/
def idcRefreshRequest (a : KiroAccount) : RefreshDispatch :=
  if !(truthy a.refresh_token) then
    .failNoUpstream "No refresh token available"
  else if !(truthy a.client_id) || !(truthy a.client_secret) then
    .failNoUpstream "Missing client credentials. Please re-authenticate."
  else
    .post ⟨oidcTokenUrl (regionOf a),
      [("clientId", a.client_id.getD ""),
       ("clientSecret", a.client_secret.getD ""),
       ("grantType", "refresh_token"),
       ("refreshToken", a.refresh_token.getD "")]⟩

/-- Pre-flight and request construction of `AccountManager._refresh_social_token`
(`accounts.py` lines 423-438): refresh-token check, then one POST to the
regional Kiro auth-service refresh endpoint. -/
def socialRefreshRequest (a : KiroAccount) : RefreshDispatch :=
  if !(truthy a.refresh_token) then
    .failNoUpstream "No refresh token available"
  else
    .post ⟨kiroRefreshUrl (regionOf a),
      [("refreshToken", a.refresh_token.getD "")]⟩

/-- Protocol dispatch of `refresh_account_token` (`accounts.py` lines 399-411,
`local_storage.py` lines 449-455): client credentials present → SSO-OIDC
refresh; else `auth_method = "social"` → Kiro auth-service refresh; else fail
with the missing-client-credentials message. -/
def refresh_account_token_dispatch (a : KiroAccount) : RefreshDispatch :=
  if truthy a.client_id && truthy a.client_secret then
    idcRefreshRequest a
  else if a.auth_method == some "social" then
    socialRefreshRequest a
  else
    .failNoUpstream "Missing client credentials. Please re-authenticate."

/-- `LocalAccount.client_id` (`local_storage.py` lines 144-149):
`extra_data.get("clientId") or extra_data.get("client_id")`. -/
def localClientId (extra : List (String × String)) : Option String :=
  pyOr (extra.lookup "clientId") (extra.lookup "client_id")

/-- `LocalAccount.client_secret` (`local_storage.py` lines 151-156). -/
def localClientSecret (extra : List (String × String)) : Option String :=
  pyOr (extra.lookup "clientSecret") (extra.lookup "client_secret")

/-- The attributes the SQLAlchemy model `KiroAccount` declares
(`src/kiro_gateway/database.py` lines 54-78): its columns.  No `client_id`
or `client_secret` column or property is declared. -/
def kiroAccountColumns : List String :=
  ["id", "name", "auth_method", "provider", "access_token", "refresh_token",
   "profile_arn", "region", "expires_at", "created_at", "updated_at",
   "last_used_at", "is_active", "request_count", "extra_data"]

/-- Python attribute lookup on a `KiroAccount` ORM instance succeeds exactly
for declared columns (the class defines no other attributes or properties). -/
def dbModelHasAttr (name : String) : Bool :=
  kiroAccountColumns.contains name

/-- Outcome of `AccountManager.refresh_account_token` on the database-backed
model: the first dispatch step (`accounts.py` line 401) evaluates
`account.client_id`; if the attribute does not exist, Python raises
`AttributeError` before any branch is taken or any request is issued. -/
inductive DbRefreshOutcome where
  | attributeError (missing : String)
  | dispatched (d : RefreshDispatch)
deriving DecidableEq, Repr

/-- `AccountManager.refresh_account_token` (`accounts.py` lines 399-411) as
executed on a row of the SQLAlchemy `KiroAccount` model: attribute lookup of
`client_id` precedes everything else. -/
def refresh_account_token_db (a : KiroAccount) : DbRefreshOutcome :=
  if !(dbModelHasAttr "client_id") then .attributeError "client_id"
  else if !(dbModelHasAttr "client_secret") then .attributeError "client_secret"
  else .dispatched (refresh_account_token_dispatch a)

/-- `IdCTokenRefresher.REFRESH_THRESHOLD_SECONDS` (`token_refresh.py` line 29). -/
def REFRESH_THRESHOLD_SECONDS : Int := 300

/-- `IdCTokenRefresher.MIN_REFRESH_INTERVAL` (`token_refresh.py` line 31). -/
def MIN_REFRESH_INTERVAL : Int := 60

/-- `IdCTokenRefresher.MAX_CHECK_INTERVAL` (`token_refresh.py` line 33). -/
def MAX_CHECK_INTERVAL : Int := 300

/-- `IdCTokenRefresher._calculate_next_refresh_delay` (`token_refresh.py`
lines 230-256) as a function of `ttl = expires_at - now` (seconds; `none`
when unknown) and the fallback `_refresh_interval` (default 1800). -/
def calculate_next_refresh_delay (ttl : Option Int) (refresh_interval : Int) : Int :=
  match ttl with
  | none => refresh_interval
  | some s =>
    if s ≤ 0 then 0
    else if s ≤ REFRESH_THRESHOLD_SECONDS then MIN_REFRESH_INTERVAL
    else max MIN_REFRESH_INTERVAL (min (s - REFRESH_THRESHOLD_SECONDS - 30) MAX_CHECK_INTERVAL)

/-- Modelled from the claim wording of C2 (threshold 600 s), for comparison
with the source function. -/
def claimedDelay600 (ttl : Option Int) (fallback : Int) : Int :=
  match ttl with
  | none => fallback
  | some s =>
    if s ≤ 0 then 0
    else if s ≤ 600 then 60
    else max 60 (min (s - 600 - 30) 300)

/-- The amended schedule: the source constants, written in the spec's
clamp wording (`clamp(ttl - 300 - 30, 60, 300)`). -/
def amendedDelay300 (ttl : Option Int) (fallback : Int) : Int :=
  match ttl with
  | none => fallback
  | some s =>
    if s ≤ 0 then 0
    else if s ≤ 300 then 60
    else max 60 (min (s - 330) 300)

/-- A parsed upstream refresh response: HTTP status and the JSON fields the
refresh code reads.  `expiresIn` is `none` when the key is absent. -/
structure UpstreamResponse where
  status : Nat
  accessToken : Option String
  refreshToken : Option String
  profileArn : Option String
  expiresIn : Option Int
deriving DecidableEq, Repr

/-- The token fields of the cached `KiroAuthManager` the pool holds for an
account (`accounts.py` lines 78-91 set them from the record). -/
structure AuthMgrState where
  access_token : Option String
  refresh_token : Option String
  profile_arn : Option String
  expires_at : Option Int
deriving DecidableEq, Repr

/-- Everything a refresh can write: the stored record and, when the account
is loaded in the pool, its cached auth manager. -/
structure RefreshEnvState where
  account : KiroAccount
  authMgr : Option AuthMgrState
deriving DecidableEq, Repr

/-- `AccountManager.update_account_tokens` (`accounts.py` lines 322-374):
partial token update of the stored row and the cached auth manager.
`refresh_token` and `profile_arn` are written only when truthy; `expires_at`
(a datetime) only when present. -/
def update_account_tokens (st : RefreshEnvState) (access_token : String)
    (refresh_token : Option String) (expires_at : Option Int)
    (profile_arn : Option String) : RefreshEnvState :=
  let a := st.account
  let a2 : KiroAccount :=
    { a with
      access_token := some access_token,
      refresh_token := if truthy refresh_token then refresh_token else a.refresh_token,
      expires_at := match expires_at with
        | some e => some e
        | none => a.expires_at,
      profile_arn := if truthy profile_arn then profile_arn else a.profile_arn }
  let mgr2 : Option AuthMgrState :=
    match st.authMgr with
    | none => none
    | some m =>
      some { m with
        access_token := some access_token,
        refresh_token := if truthy refresh_token then refresh_token else m.refresh_token,
        expires_at := match expires_at with
          | some e => some e
          | none => m.expires_at,
        profile_arn := if truthy profile_arn then profile_arn else m.profile_arn }
  ⟨a2, mgr2⟩

/-- `AccountManager._refresh_social_token` (`accounts.py` lines 413-487)
given the upstream response and the completion time `now` (seconds).
Returns the `(success, message)` pair and the post-state.  A 4xx/5xx status
makes `response.raise_for_status()` raise; 401 maps to the
refresh-token-expired message.  A response without a truthy `accessToken`
fails before any write. -/
def refresh_social_token_step (st : RefreshEnvState) (resp : UpstreamResponse)
    (now : Int) : (Bool × String) × RefreshEnvState :=
  let a := st.account
  if !(truthy a.refresh_token) then ((false, "No refresh token available"), st)
  else if 400 ≤ resp.status then
    (if resp.status == 401 then
      ((false, "Refresh token expired. Please re-authenticate."), st)
    else ((false, "HTTP error: " ++ toString resp.status), st))
  else
    let expires_in := resp.expiresIn.getD 3600
    if !(truthy resp.accessToken) then ((false, "No access token in response"), st)
    else
      let expires_at := now + expires_in
      let st1 := update_account_tokens st (resp.accessToken.getD "")
        (pyOr resp.refreshToken a.refresh_token)
        (some expires_at)
        (pyOr resp.profileArn a.profile_arn)
      let st2 : RefreshEnvState :=
        match st1.authMgr with
        | none => st1
        | some m =>
          let m2 : AuthMgrState :=
            { m with
              access_token := resp.accessToken,
              refresh_token := if truthy resp.refreshToken then resp.refreshToken
                else m.refresh_token,
              expires_at := some expires_at,
              profile_arn := if truthy resp.profileArn then resp.profileArn
                else m.profile_arn }
          { st1 with authMgr := some m2 }
      ((true, "Token refreshed successfully"), st2)

/-- `AccountManager._refresh_idc_token` (`accounts.py` lines 489-566) given
the upstream response and the completion time `now`.  Same response handling
as the social protocol, except `profile_arn` is re-written with the stored
value and the auth-manager block does not touch it. -/
def refresh_idc_token_step (st : RefreshEnvState) (resp : UpstreamResponse)
    (now : Int) : (Bool × String) × RefreshEnvState :=
  let a := st.account
  if !(truthy a.refresh_token) then ((false, "No refresh token available"), st)
  else if !(truthy a.client_id) || !(truthy a.client_secret) then
    ((false, "Missing client credentials. Please re-authenticate."), st)
  else if 400 ≤ resp.status then
    (if resp.status == 401 then
      ((false, "Refresh token expired. Please re-authenticate."), st)
    else ((false, "HTTP error: " ++ toString resp.status), st))
  else
    let expires_in := resp.expiresIn.getD 3600
    if !(truthy resp.accessToken) then ((false, "No access token in response"), st)
    else
      let expires_at := now + expires_in
      let st1 := update_account_tokens st (resp.accessToken.getD "")
        (pyOr resp.refreshToken a.refresh_token)
        (some expires_at)
        a.profile_arn
      let st2 : RefreshEnvState :=
        match st1.authMgr with
        | none => st1
        | some m =>
          let m2 : AuthMgrState :=
            { m with
              access_token := resp.accessToken,
              refresh_token := if truthy resp.refreshToken then resp.refreshToken
                else m.refresh_token,
              expires_at := some expires_at }
          { st1 with authMgr := some m2 }
      ((true, "Token refreshed successfully"), st2)

/-- In-memory pool state shared by `AccountManager` and `LocalAccountManager`:
the ordered round-robin list `_account_ids`, the key set of `_auth_managers`,
and `_current_index`. -/
structure AccountPool where
  accountIds : List Int
  authKeys : List Int
  currentIndex : Nat
deriving DecidableEq, Repr

/-- The bounded retry loop inside `get_next_account` (`accounts.py` lines
196-208, `local_storage.py` lines 312-322): read the id at the cursor,
advance the cursor modulo the list length, return the id when its auth
manager exists, else try again (at most `attempts` times). -/
def getNextLoop : AccountPool → Nat → Option Int × AccountPool
  | st, 0 => (none, st)
  | st, n + 1 =>
    match st.accountIds.get? st.currentIndex with
    | none => (none, st)
    | some accId =>
      let st2 : AccountPool :=
        { st with currentIndex := (st.currentIndex + 1) % st.accountIds.length }
      if accId ∈ st2.authKeys then (some accId, st2) else getNextLoop st2 n

/-- `get_next_account` (`accounts.py` lines 185-208): `none` on an empty
pool, else the loop with `attempts = len(_account_ids)`.  The returned id
stands for the returned `KiroAuthManager`. -/
def get_next_account (st : AccountPool) : Option Int × AccountPool :=
  if st.accountIds.isEmpty then (none, st) else getNextLoop st st.accountIds.length

/-- Run `get_next_account` `n` times, collecting the returned ids in order. -/
def runNextAccounts : AccountPool → Nat → List (Option Int) × AccountPool
  | st, 0 => ([], st)
  | st, n + 1 =>
    let r := get_next_account st
    let rest := runNextAccounts r.2 n
    (r.1 :: rest.1, rest.2)

/-- In-memory effect of `load_accounts` (`accounts.py` lines 51-76): both
maps rebuilt from the active rows, cursor reset to 0. -/
def load_accounts_pool (activeIds : List Int) : AccountPool :=
  ⟨activeIds, activeIds, 0⟩

/-- In-memory effect of `add_account` (`accounts.py` lines 141-145): the new
id keyed into `_auth_managers` and appended to `_account_ids`. -/
def add_account_pool (st : AccountPool) (accId : Int) : AccountPool :=
  { st with
    authKeys := if accId ∈ st.authKeys then st.authKeys else st.authKeys ++ [accId],
    accountIds := st.accountIds ++ [accId] }

/-- In-memory effect of `remove_account` (`accounts.py` lines 172-180):
delete from both maps; reset the cursor to 0 when it no longer indexes the
shortened list. -/
def remove_account_pool (st : AccountPool) (accId : Int) : AccountPool :=
  let keys := if accId ∈ st.authKeys then st.authKeys.erase accId else st.authKeys
  if accId ∈ st.accountIds then
    let ids := st.accountIds.erase accId
    { accountIds := ids,
      authKeys := keys,
      currentIndex := if ids.length ≤ st.currentIndex then 0 else st.currentIndex }
  else
    { st with authKeys := keys }

/-- In-memory effect of the activation toggle in `AccountManager.update_account`
(`accounts.py` lines 306-317): activating re-appends the id only when absent
from `_account_ids` and present in `_auth_managers`; deactivating removes it
from `_account_ids` and resets the cursor when out of range. -/
def update_account_active_pool (st : AccountPool) (accId : Int) (is_active : Bool) :
    AccountPool :=
  if is_active then
    if !(st.accountIds.contains accId) && st.authKeys.contains accId then
      { st with accountIds := st.accountIds ++ [accId] }
    else st
  else
    if accId ∈ st.accountIds then
      let ids := st.accountIds.erase accId
      { st with
        accountIds := ids,
        currentIndex := if ids.length ≤ st.currentIndex then 0 else st.currentIndex }
    else st

/-- In-memory effect of the activation toggle in `LocalAccountManager.update_account`
(`local_storage.py` lines 381-393): activating appends the id (when absent)
and re-creates its auth manager; deactivating removes it from both maps and
then resets the cursor when out of range. -/
def local_update_account_active (st : AccountPool) (accId : Int) (is_active : Bool) :
    AccountPool :=
  if is_active then
    if accId ∈ st.accountIds then st
    else
      { st with
        accountIds := st.accountIds ++ [accId],
        authKeys := if accId ∈ st.authKeys then st.authKeys else st.authKeys ++ [accId] }
  else
    let ids := if accId ∈ st.accountIds then st.accountIds.erase accId else st.accountIds
    let keys := if accId ∈ st.authKeys then st.authKeys.erase accId else st.authKeys
    { accountIds := ids,
      authKeys := keys,
      currentIndex := if ids.length ≤ st.currentIndex then 0 else st.currentIndex }

/-- In-memory effect of `LocalAccountManager._load_from_file` on the two maps
(`local_storage.py` lines 210-216): each active record appends its id and
keys an auth manager; inactive records touch neither. -/
def local_load_accounts (records : List (Int × Bool)) : AccountPool :=
  { accountIds := (records.filter (fun r => r.2)).map (fun r => r.1),
    authKeys := (records.filter (fun r => r.2)).map (fun r => r.1),
    currentIndex := 0 }

/-- The pool representation invariant: the round-robin list has no duplicate
ids, every listed id has an auth manager, and the cursor indexes the list
(or the pool is empty with the cursor at 0). -/
def poolWF (st : AccountPool) : Prop :=
  st.accountIds.Nodup ∧ (∀ i ∈ st.accountIds, i ∈ st.authKeys) ∧
    (st.currentIndex < st.accountIds.length ∨
      (st.accountIds = [] ∧ st.currentIndex = 0))

/-- Scanner state of `find_matching_brace` (`parsers.py` lines 61-63):
`brace_count`, `in_string`, `escape_next`. -/
structure BraceState where
  depth : Int
  inString : Bool
  escNext : Bool
deriving DecidableEq, Repr

/-- One iteration of the scanning loop of `find_matching_brace`
(`parsers.py` lines 65-86), without the early return: how the state evolves
over one character. -/
def braceStep (st : BraceState) (c : Char) : BraceState :=
  if st.escNext then { st with escNext := false }
  else if c == '\\' && st.inString then { st with escNext := true }
  else if c == '"' && !st.escNext then { st with inString := !st.inString }
  else if !st.inString then
    if c == '\x7b' then { st with depth := st.depth + 1 }
    else if c == '\x7d' then { st with depth := st.depth - 1 }
    else st
  else st

/-- State after scanning a prefix of characters. -/
def scanFrom (st : BraceState) (l : List Char) : BraceState :=
  l.foldl braceStep st

/-- The scanning loop of `find_matching_brace` (`parsers.py` lines 65-88)
with its early return: `i` is the index of the current character in the
original string; returns the index of the closing brace that brings the
count to zero, or `none` at end of input. -/
def braceLoop : BraceState → Nat → List Char → Option Nat
  | _, _, [] => none
  | st, i, c :: rest =>
    if st.escNext then braceLoop { st with escNext := false } (i + 1) rest
    else if c == '\\' && st.inString then
      braceLoop { st with escNext := true } (i + 1) rest
    else if c == '"' && !st.escNext then
      braceLoop { st with inString := !st.inString } (i + 1) rest
    else if !st.inString then
      if c == '\x7b' then braceLoop { st with depth := st.depth + 1 } (i + 1) rest
      else if c == '\x7d' then
        if st.depth - 1 == 0 then some i
        else braceLoop { st with depth := st.depth - 1 } (i + 1) rest
      else braceLoop st (i + 1) rest
    else braceLoop st (i + 1) rest

/-- `find_matching_brace` (`parsers.py` lines 38-88).  Text is the list of
the string's characters (Python indexes code points).  Returns the position
of the closing brace, or `-1` when `start_pos` is out of range, does not
hold `'\x7b'`, or no closing brace is found. -/
def find_matching_brace (text : List Char) (start_pos : Nat) : Int :=
  if h : start_pos < text.length then
    if text.get ⟨start_pos, h⟩ == '\x7b' then
      match braceLoop ⟨0, false, false⟩ start_pos (List.drop start_pos text) with
      | some i => (i : Int)
      | none => -1
    else -1
  else -1

/-- Position `n` of `l` (the text from `start_pos` on) is an effective
closing brace that brings the nesting count to zero: the scanner state after
the first `n` characters is not escaping, not inside a string literal, has
count 1, and the character there is `'\x7d'`.  This is the declarative
reading of the bracket rules (braces counted only outside double-quoted
strings, backslash escapes honoured). -/
def closesAt (st : BraceState) (l : List Char) (n : Nat) : Prop :=
  ∃ h : n < l.length,
    (scanFrom st (l.take n)).escNext = false ∧
    (scanFrom st (l.take n)).inString = false ∧
    (scanFrom st (l.take n)).depth = 1 ∧
    l.get ⟨n, h⟩ = '\x7d'

instance (st : BraceState) (l : List Char) (n : Nat) : Decidable (closesAt st l n) := by
  unfold closesAt; infer_instance

/-- The matching closing brace of the brace at `p` in `text`, as the spec
states it: the least position `j ≥ p` whose character closes the brace
opened at `p` under the string-aware counting rules. -/
def isMatchingClose (text : List Char) (p : Nat) (j : Nat) : Prop :=
  p ≤ j ∧ closesAt ⟨0, false, false⟩ (List.drop p text) (j - p) ∧
    ∀ i < j - p, ¬ closesAt ⟨0, false, false⟩ (List.drop p text) i

instance (text : List Char) (p j : Nat) : Decidable (isMatchingClose text p j) := by
  unfold isMatchingClose
  infer_instance

/-- A content event as `_process_content_event` reads it: its `content`
payload (default `""`) and whether a `followupPrompt` key is present and
truthy. -/
structure ContentEvent where
  content : String
  followupPrompt : Bool
deriving DecidableEq, Repr

/-- `AwsEventStreamParser._process_content_event` (`parsers.py` lines
294-308) as a transition on `last_content`: returns the emitted payload (if
any) and the new `last_content`. -/
def process_content_event (last : Option String) (e : ContentEvent) :
    Option String × Option String :=
  if e.followupPrompt then (none, last)
  else if last == some e.content then (none, last)
  else (some e.content, some e.content)

/-- The text deltas emitted for a sequence of content events, threading
`last_content` through `_process_content_event`. -/
def contentLoop : Option String → List ContentEvent → List String
  | _, [] => []
  | last, e :: rest =>
    match process_content_event last e with
    | (some out, last2) => out :: contentLoop last2 rest
    | (none, last2) => contentLoop last2 rest

/-- Emitted deltas for a fresh parser (`last_content` starts as `None`,
`parsers.py` line 214). -/
def process_content_stream (events : List ContentEvent) : List String :=
  contentLoop none events

/-- `_cache_ttl_seconds` (`per_request_auth.py` line 56). -/
def CACHE_TTL : Int := 300

/-- `_cache_cleanup_interval` (`per_request_auth.py` line 57). -/
def CACHE_CLEANUP_INTERVAL : Int := 600

/-- One entry of `_auth_manager_cache` (`per_request_auth.py` lines 44-51);
the auth-manager payload is irrelevant to eviction and omitted. -/
structure CacheEntry where
  created_at : Int
  last_used : Int
deriving DecidableEq, Repr

/-- The bearer-token cache: the map from token hash to entry (association
list with distinct keys, standing for the Python dict) plus
`_last_cache_cleanup`. -/
structure AuthCacheState where
  entries : List (String × CacheEntry)
  lastCleanup : Int
deriving DecidableEq, Repr

/-- `_cleanup_cache` (`per_request_auth.py` lines 77-100): no-op within
`_cache_cleanup_interval` of the previous sweep; otherwise drop every entry
with `now - last_used > _cache_ttl_seconds` and record the sweep time. -/
def cleanup_cache (now : Int) (st : AuthCacheState) : AuthCacheState :=
  if now - st.lastCleanup < CACHE_CLEANUP_INTERVAL then st
  else
    { entries := st.entries.filter (fun kv => decide (now - kv.2.last_used ≤ CACHE_TTL)),
      lastCleanup := now }

/-- `get_cached_auth_manager` (`per_request_auth.py` lines 126-152): run the
periodic sweep, look the hash up, drop and miss when the entry has idled
past the TTL, otherwise touch `last_used` and hit.  `key` is the token hash
(`_hash_token` of the bearer token). -/
def get_cached_auth_manager (now : Int) (key : String) (st : AuthCacheState) :
    Option CacheEntry × AuthCacheState :=
  let st1 := cleanup_cache now st
  match st1.entries.lookup key with
  | none => (none, st1)
  | some e =>
    if CACHE_TTL < now - e.last_used then
      (none, { st1 with entries := st1.entries.filter (fun kv => !(kv.1 == key)) })
    else
      let e2 : CacheEntry := { e with last_used := now }
      (some e2,
        { st1 with
          entries := st1.entries.map (fun kv => if kv.1 == key then (kv.1, e2) else kv) })

/-- `sep in s` and `s.split(sep, 1)` for a one-character separator, over
the text's characters: the part before the first occurrence and the
remainder, or `none` when the separator does not occur. -/
def splitOnceChar (sep : Char) : List Char → Option (List Char × List Char)
  | [] => none
  | c :: cs =>
    if c == sep then some ([], cs)
    else (splitOnceChar sep cs).map (fun p => (c :: p.1, p.2))

/-- `s.split(sep)` for a one-character separator, over the text's
characters. -/
def splitAllChar (sep : Char) : List Char → List (List Char)
  | [] => [[]]
  | c :: cs =>
    match splitAllChar sep cs with
    | [] => [[]]
    | h :: t => if c == sep then [] :: h :: t else (c :: h) :: t

/-- `s.startswith(pre)` over the text's characters. -/
def startsWithChars : List Char → List Char → Bool
  | _, [] => true
  | [], _ :: _ => false
  | c :: cs, p :: ps => c == p && startsWithChars cs ps

/-- Python `params[key] = value` on a dict modelled as an association list
with distinct keys: overwrite when present, append when absent. -/
def dictAssign (d : List (List Char × List Char)) (k v : List Char) :
    List (List Char × List Char) :=
  if d.any (fun kv => kv.1 == k) then
    d.map (fun kv => if kv.1 == k then (k, v) else kv)
  else d ++ [(k, v)]

/-- Query parsing in `OAuthCallbackServer._handle_connection` (`oauth.py`
lines 156-162): split on `&`; for each part holding `=`, split once and
assign key to the remainder. -/
def parse_query_params (query_string : List Char) : List (List Char × List Char) :=
  (splitAllChar '&' query_string).foldl
    (fun acc p =>
      match splitOnceChar '=' p with
      | some (k, v) => dictAssign acc k v
      | none => acc)
    []

/-- How the callback handler resolves the flow for one request. -/
inductive CallbackOutcome where
  | providerError (message : List Char)
  | stateMismatch
  | noCode
  | codeExchange (code : List Char)
deriving DecidableEq, Repr

/-- The handler's observable effect on one inbound request: HTTP status of
the reply, how the pending flow is resolved (`none` when the request is
ignored), and whether a POST to the `/oauth/token` exchange endpoint was
issued. -/
structure CallbackResponse where
  status : Nat
  outcome : Option CallbackOutcome
  tokenEndpointPosted : Bool
deriving DecidableEq, Repr

/-- Query-string extraction from the request path (`oauth.py` lines
156-158): the text after the first `?`, when any. -/
def paramsOfPath (path : List Char) : List (List Char × List Char) :=
  match splitOnceChar '?' path with
  | some (_, q) => parse_query_params q
  | none => []

/-- Python truthiness of an optional character list (`None` and the empty
text are falsy). -/
def truthyC : Option (List Char) → Bool
  | none => false
  | some l => !l.isEmpty

/-- `OAuthCallbackServer._handle_connection` (`oauth.py` lines 126-231)
after the request line is parsed into method and path: non-callback requests
get 204; an `error` parameter fails the flow first; then the `state`
parameter (default `""`) is validated against the expected state; then a
missing or empty `code` fails; otherwise the code is exchanged by a POST to
`/oauth/token` (`_exchange_code`, lines 233-249) and 200 is sent when the
exchange succeeds. -/
def handle_callback (expected_state : List Char) (method : String) (path : List Char) :
    CallbackResponse :=
  if !(method == "GET") || !(startsWithChars path "/oauth/callback".data) then
    ⟨204, none, false⟩
  else
    let params := paramsOfPath path
    match params.lookup "error".data with
    | some err => ⟨400, some (.providerError ("OAuth error: ".data ++ err)), false⟩
    | none =>
      let state := (params.lookup "state".data).getD []
      if !(state == expected_state) then ⟨400, some .stateMismatch, false⟩
      else
        let code := params.lookup "code".data
        if !(truthyC code) then ⟨400, some .noCode, false⟩
        else ⟨200, some (.codeExchange (code.getD [])), true⟩

/-- C2 counterexample: at `ttl = 500` the claimed schedule (threshold 600 s)
gives `MIN_REFRESH_INTERVAL = 60`, but the source computes
`clamp(500 - 300 - 30, 60, 300) = 170`. -/
theorem c2_delay_counterexample :
    calculate_next_refresh_delay (some 500) 1800 = 170 ∧
    claimedDelay600 (some 500) 1800 = 60 ∧
    calculate_next_refresh_delay (some 500) 1800 ≠ claimedDelay600 (some 500) 1800 := by
  refine ⟨by decide, by decide, by decide⟩

/-- C2 (amended): the next-refresh delay is a pure function of
`ttl = expires_at - now`: the fallback interval when `ttl` is unknown, `0`
when `ttl ≤ 0`, `60` when `ttl ≤ 300` (the source threshold
`REFRESH_THRESHOLD_SECONDS = 300`, not 600), and otherwise
`ttl - 300 - 30` clamped into `[60, 300]`. -/
theorem c2_delay_schedule :
    ∀ (ttl : Option Int) (fallback : Int),
      calculate_next_refresh_delay ttl fallback = amendedDelay300 ttl fallback := by
  intro ttl fallback
  cases ttl with
  | none => rfl
  | some s =>
    simp only [calculate_next_refresh_delay, amendedDelay300, REFRESH_THRESHOLD_SECONDS,
      MIN_REFRESH_INTERVAL, MAX_CHECK_INTERVAL]
    have h : s - 300 - 30 = s - 330 := by ring
    rw [h]

/-- C1: protocol selection of `refresh_account_token` for a record whose
client-credential attributes are readable (the `LocalAccount` path, and the
intent documented for the database path): given a refresh token, client
credentials present → exactly the SSO-OIDC POST with body
`clientId/clientSecret/grantType/refreshToken`, regardless of
`auth_method`; else `auth_method = "social"` → exactly the Kiro
auth-service POST with body `refreshToken`; else the missing-credentials
failure with no upstream call.  On the database-backed manager, however,
the SQLAlchemy `KiroAccount` model declares no `client_id` attribute, so
the very first dispatch step raises `AttributeError` for every record and
no request is ever issued. -/
theorem c1_refresh_protocol_selection :
    (∀ a : KiroAccount, truthy a.refresh_token = true →
      ((truthy a.client_id = true ∧ truthy a.client_secret = true →
        refresh_account_token_dispatch a =
          .post ⟨oidcTokenUrl (regionOf a),
            [("clientId", a.client_id.getD ""),
             ("clientSecret", a.client_secret.getD ""),
             ("grantType", "refresh_token"),
             ("refreshToken", a.refresh_token.getD "")]⟩) ∧
       (¬(truthy a.client_id = true ∧ truthy a.client_secret = true) →
        a.auth_method = some "social" →
        refresh_account_token_dispatch a =
          .post ⟨kiroRefreshUrl (regionOf a),
            [("refreshToken", a.refresh_token.getD "")]⟩) ∧
       (¬(truthy a.client_id = true ∧ truthy a.client_secret = true) →
        a.auth_method ≠ some "social" →
        refresh_account_token_dispatch a =
          .failNoUpstream "Missing client credentials. Please re-authenticate."))) ∧
    dbModelHasAttr "client_id" = false ∧
    (∀ a : KiroAccount, refresh_account_token_db a = .attributeError "client_id") := by
  refine ⟨?_, by decide, ?_⟩
  · intro a hrt
    refine ⟨?_, ?_, ?_⟩
    · rintro ⟨hcid, hcs⟩
      simp [refresh_account_token_dispatch, idcRefreshRequest, hcid, hcs, hrt]
    · intro hno hsoc
      have hcc : (truthy a.client_id && truthy a.client_secret) = false := by
        cases h1 : truthy a.client_id <;> cases h2 : truthy a.client_secret <;> simp_all
      simp [refresh_account_token_dispatch, socialRefreshRequest, hcc, hsoc, hrt]
    · intro hno hnsoc
      have hcc : (truthy a.client_id && truthy a.client_secret) = false := by
        cases h1 : truthy a.client_id <;> cases h2 : truthy a.client_secret <;> simp_all
      simp [refresh_account_token_dispatch, hcc, hnsoc]
  · intro a
    rfl

/-- The record of spec scenario 2: `auth_kind = social` with client
credentials `C`/`S`, refresh token `R`, region `us-east-1`. -/
def c1AccountIdc : KiroAccount :=
  { id := 1, auth_method := some "social", provider := some "Google",
    access_token := some "AT", refresh_token := some "R",
    profile_arn := none, region := some "us-east-1",
    client_id := some "C", client_secret := some "S", expires_at := none }

/-- A social record without client credentials. -/
def c1AccountSocial : KiroAccount :=
  { id := 2, auth_method := some "social", provider := some "Github",
    access_token := some "AT", refresh_token := some "R2",
    profile_arn := none, region := none,
    client_id := none, client_secret := none, expires_at := none }

/-- A non-social record without client credentials. -/
def c1AccountBare : KiroAccount :=
  { id := 3, auth_method := some "IdC", provider := none,
    access_token := some "AT", refresh_token := some "R3",
    profile_arn := none, region := some "eu-west-1",
    client_id := none, client_secret := none, expires_at := none }

/-- C1 witness: the three dispatch branches evaluated on concrete records. -/
theorem c1_refresh_protocol_selection_witness :
    refresh_account_token_dispatch c1AccountIdc =
      .post ⟨oidcTokenUrl (regionOf c1AccountIdc),
        [("clientId", c1AccountIdc.client_id.getD ""),
         ("clientSecret", c1AccountIdc.client_secret.getD ""),
         ("grantType", "refresh_token"),
         ("refreshToken", c1AccountIdc.refresh_token.getD "")]⟩ ∧
    refresh_account_token_dispatch c1AccountSocial =
      .post ⟨kiroRefreshUrl (regionOf c1AccountSocial),
        [("refreshToken", c1AccountSocial.refresh_token.getD "")]⟩ ∧
    refresh_account_token_dispatch c1AccountBare =
      .failNoUpstream "Missing client credentials. Please re-authenticate." ∧
    refresh_account_token_db c1AccountIdc = .attributeError "client_id" :=
  ⟨((c1_refresh_protocol_selection.1 c1AccountIdc (by decide)).1 ⟨by decide, by decide⟩),
   ((c1_refresh_protocol_selection.1 c1AccountSocial (by decide)).2.1 (by decide) (by decide)),
   ((c1_refresh_protocol_selection.1 c1AccountBare (by decide)).2.2 (by decide) (by decide)),
   (c1_refresh_protocol_selection.2.2 c1AccountIdc)⟩

/-- C6: for both refresh protocols, an upstream 401 yields the
refresh-token-expired failure and a 200 response without `accessToken`
yields the malformed-response failure, and in both cases the post-state —
stored record and cached auth manager alike — is exactly the pre-state: no
token field is written. -/
theorem c6_refresh_failure_leaves_state :
    ∀ (st : RefreshEnvState) (resp : UpstreamResponse) (now : Int),
      truthy st.account.refresh_token = true →
      ((resp.status = 401 →
        refresh_social_token_step st resp now =
          ((false, "Refresh token expired. Please re-authenticate."), st) ∧
        (truthy st.account.client_id = true → truthy st.account.client_secret = true →
          refresh_idc_token_step st resp now =
            ((false, "Refresh token expired. Please re-authenticate."), st))) ∧
       (resp.status = 200 → resp.accessToken = none →
        refresh_social_token_step st resp now =
          ((false, "No access token in response"), st) ∧
        (truthy st.account.client_id = true → truthy st.account.client_secret = true →
          refresh_idc_token_step st resp now =
            ((false, "No access token in response"), st)))) := by
  intro st resp now hrt
  constructor
  · intro h401
    constructor
    · simp [refresh_social_token_step, hrt, h401]
    · intro hcid hcs
      simp [refresh_idc_token_step, hrt, h401, hcid, hcs]
  · intro h200 hat
    have hta : truthy resp.accessToken = false := by rw [hat]; rfl
    constructor
    · simp [refresh_social_token_step, hrt, h200, hta]
    · intro hcid hcs
      simp [refresh_idc_token_step, hrt, h200, hta, hcid, hcs]

/-- Pre-state for the C6 witness: a loaded social record with a cached auth
manager. -/
def c6State : RefreshEnvState :=
  { account :=
      { id := 7, auth_method := some "social", provider := some "Google",
        access_token := some "oldAT", refresh_token := some "oldRT",
        profile_arn := some "arn:old", region := some "us-east-1",
        client_id := some "C", client_secret := some "S",
        expires_at := some 5000 },
    authMgr := some
      { access_token := some "oldAT", refresh_token := some "oldRT",
        profile_arn := some "arn:old", expires_at := some 5000 } }

/-- A 401 response. -/
def c6Resp401 : UpstreamResponse :=
  { status := 401, accessToken := none, refreshToken := none,
    profileArn := none, expiresIn := none }

/-- A 200 response lacking `accessToken`. -/
def c6Resp200NoTok : UpstreamResponse :=
  { status := 200, accessToken := none, refreshToken := some "newRT",
    profileArn := some "arn:new", expiresIn := some 3600 }

/-- C6 witness: both failure branches evaluated on a concrete state. -/
theorem c6_refresh_failure_leaves_state_witness :
    refresh_social_token_step c6State c6Resp401 1000 =
      ((false, "Refresh token expired. Please re-authenticate."), c6State) ∧
    refresh_idc_token_step c6State c6Resp401 1000 =
      ((false, "Refresh token expired. Please re-authenticate."), c6State) ∧
    refresh_social_token_step c6State c6Resp200NoTok 1000 =
      ((false, "No access token in response"), c6State) ∧
    refresh_idc_token_step c6State c6Resp200NoTok 1000 =
      ((false, "No access token in response"), c6State) :=
  ⟨((c6_refresh_failure_leaves_state c6State c6Resp401 1000 (by decide)).1 (by decide)).1,
   ((c6_refresh_failure_leaves_state c6State c6Resp401 1000 (by decide)).1
      (by decide)).2 (by decide) (by decide),
   ((c6_refresh_failure_leaves_state c6State c6Resp200NoTok 1000 (by decide)).2
      (by decide) (by decide)).1,
   ((c6_refresh_failure_leaves_state c6State c6Resp200NoTok 1000 (by decide)).2
      (by decide) (by decide)).2 (by decide) (by decide)⟩

/-- `pyOr` is truthy iff one operand is. -/
theorem truthy_pyOr (a b : Option String) : truthy (pyOr a b) = (truthy a || truthy b) := by
  unfold pyOr
  cases h : truthy a <;> simp [h]

/-- Keeping the old value under a truthiness guard preserves truthiness. -/
theorem truthy_if_keep (x old : Option String) (hold : truthy old = true) :
    truthy (if truthy x = true then x else old) = true := by
  cases h : truthy x <;> simp [h, hold]

/-- Success path of `_refresh_social_token`: the refresh reports success,
stores `expires_at = now + expiresIn` (default 3600), and leaves the record
with a truthy refresh token. -/
theorem refresh_social_success_projections (st : RefreshEnvState)
    (resp : UpstreamResponse) (now : Int)
    (hrt : truthy st.account.refresh_token = true)
    (hst : resp.status = 200) (hat : truthy resp.accessToken = true) :
    (refresh_social_token_step st resp now).1.1 = true ∧
    (refresh_social_token_step st resp now).2.account.expires_at =
      some (now + resp.expiresIn.getD 3600) ∧
    truthy (refresh_social_token_step st resp now).2.account.refresh_token = true := by
  have h400 : ¬(400 ≤ resp.status) := by omega
  have hkeep :
      truthy (if truthy (pyOr resp.refreshToken st.account.refresh_token) = true then
        pyOr resp.refreshToken st.account.refresh_token else
        st.account.refresh_token) = true := by
    apply truthy_if_keep
    exact hrt
  cases hm : st.authMgr with
  | none =>
    simp [refresh_social_token_step, hrt, hat, h400, update_account_tokens, hm]
    exact hkeep
  | some m =>
    simp [refresh_social_token_step, hrt, hat, h400, update_account_tokens, hm]
    exact hkeep

/-- Record for the C3 counterexample. -/
def c3Account : KiroAccount :=
  { id := 9, auth_method := some "social", provider := some "Google",
    access_token := some "AT0", refresh_token := some "RT0",
    profile_arn := none, region := some "us-east-1",
    client_id := none, client_secret := none, expires_at := some 1000 }

/-- First refresh response: long-lived token (`expiresIn = 86400`). -/
def c3Resp1 : UpstreamResponse :=
  { status := 200, accessToken := some "AT1", refreshToken := some "RT1",
    profileArn := none, expiresIn := some 86400 }

/-- Second refresh response: short-lived token (`expiresIn = 3600`). -/
def c3Resp2 : UpstreamResponse :=
  { status := 200, accessToken := some "AT2", refreshToken := none,
    profileArn := none, expiresIn := some 3600 }

/-- State after the first refresh of the C3 counterexample. -/
def c3State1 : RefreshEnvState :=
  (refresh_social_token_step ⟨c3Account, none⟩ c3Resp1 0).2

/-- C3 counterexample: two successful refreshes of the same record, the
first completing at `t₁ = 0` with `expiresIn = 86400`, the second at
`t₂ = 10` with `expiresIn = 3600`.  The stored `expires_at` moves backward
from 86400 to 3610: the code overwrites it with `now + expiresIn` and never
enforces monotonicity. -/
theorem c3_expires_monotone_counterexample :
    (refresh_social_token_step ⟨c3Account, none⟩ c3Resp1 0).1.1 = true ∧
    (refresh_social_token_step c3State1 c3Resp2 10).1.1 = true ∧
    (0 : Int) < 10 ∧
    c3State1.account.expires_at = some 86400 ∧
    (refresh_social_token_step c3State1 c3Resp2 10).2.account.expires_at = some 3610 ∧
    (3610 : Int) < 86400 := by
  refine ⟨by decide, by decide, by decide, by decide, by decide, by decide⟩

/-- C3 (amended): a successful refresh stores
`expires_at = completion time + expiresIn` (default 3600); across two
successful refreshes of the same record at `t₁ ≤ t₂`, the stored
`expires_at` does not move backward provided the later response's
`expiresIn` is at least the earlier's — without that proviso it can
decrease, as the counterexample shows. -/
theorem c3_expires_monotone_amended :
    ∀ (st : RefreshEnvState) (r1 r2 : UpstreamResponse) (t1 t2 : Int),
      truthy st.account.refresh_token = true →
      r1.status = 200 → truthy r1.accessToken = true →
      r2.status = 200 → truthy r2.accessToken = true →
      t1 ≤ t2 → r1.expiresIn.getD 3600 ≤ r2.expiresIn.getD 3600 →
      ((refresh_social_token_step st r1 t1).1.1 = true ∧
       (refresh_social_token_step (refresh_social_token_step st r1 t1).2 r2 t2).1.1 = true ∧
       (refresh_social_token_step st r1 t1).2.account.expires_at =
         some (t1 + r1.expiresIn.getD 3600) ∧
       (refresh_social_token_step
          (refresh_social_token_step st r1 t1).2 r2 t2).2.account.expires_at =
         some (t2 + r2.expiresIn.getD 3600) ∧
       t1 + r1.expiresIn.getD 3600 ≤ t2 + r2.expiresIn.getD 3600) := by
  intro st r1 r2 t1 t2 hrt h1s h1a h2s h2a ht he
  obtain ⟨hok1, hexp1, hrt1⟩ := refresh_social_success_projections st r1 t1 hrt h1s h1a
  obtain ⟨hok2, hexp2, _⟩ :=
    refresh_social_success_projections (refresh_social_token_step st r1 t1).2 r2 t2 hrt1 h2s h2a
  exact ⟨hok1, hok2, hexp1, hexp2, by omega⟩

/-- C3 witness: the amended monotonicity at a concrete record and pair of
responses with equal `expiresIn`. -/
theorem c3_expires_monotone_amended_witness :
    (refresh_social_token_step ⟨c3Account, none⟩ c3Resp2 0).1.1 = true ∧
    (refresh_social_token_step
       (refresh_social_token_step ⟨c3Account, none⟩ c3Resp2 0).2 c3Resp2 10).1.1 = true ∧
    (refresh_social_token_step ⟨c3Account, none⟩ c3Resp2 0).2.account.expires_at =
      some (0 + c3Resp2.expiresIn.getD 3600) ∧
    (refresh_social_token_step
       (refresh_social_token_step ⟨c3Account, none⟩ c3Resp2 0).2 c3Resp2 10).2.account.expires_at =
      some (10 + c3Resp2.expiresIn.getD 3600) ∧
    (0 : Int) + c3Resp2.expiresIn.getD 3600 ≤ 10 + c3Resp2.expiresIn.getD 3600 :=
  c3_expires_monotone_amended ⟨c3Account, none⟩ c3Resp2 c3Resp2 0 10
    (by decide) (by decide) (by decide) (by decide) (by decide) (by decide) (by decide)

/-- C7 counterexample: a callback request whose `state` differs from the
expected value but which also carries an `error` parameter is answered 400
with no token POST, yet the flow resolves to the provider-error failure —
not to the state-mismatch failure the claim asserts, because the handler
checks `error` before validating `state`. -/
theorem c7_state_mismatch_counterexample :
    handle_callback "RIGHT".data "GET"
        "/oauth/callback?error=access_denied&state=WRONG".data =
      ⟨400, some (.providerError "OAuth error: access_denied".data), false⟩ ∧
    (paramsOfPath "/oauth/callback?error=access_denied&state=WRONG".data).lookup
        "state".data = some "WRONG".data ∧
    "WRONG".data ≠ "RIGHT".data ∧
    (handle_callback "RIGHT".data "GET"
        "/oauth/callback?error=access_denied&state=WRONG".data).outcome ≠
      some CallbackOutcome.stateMismatch := by
  refine ⟨by decide, by decide, by decide, by decide⟩

/-- C7 (amended): when the listener receives `GET /oauth/callback…` carrying
no `error` parameter and whose `state` differs from the expected state, it
responds 400, the flow resolves to the state-mismatch failure, and no POST
to the `/oauth/token` exchange endpoint is made. -/
theorem c7_state_mismatch_rejected :
    ∀ (expected_state path : List Char),
      startsWithChars path "/oauth/callback".data = true →
      (paramsOfPath path).lookup "error".data = none →
      ((paramsOfPath path).lookup "state".data).getD [] ≠ expected_state →
      handle_callback expected_state "GET" path =
        ⟨400, some CallbackOutcome.stateMismatch, false⟩ := by
  intro expected_state path hpath herr hstate
  simp [handle_callback, hpath, herr, hstate]

/-- C7 witness: the spec's concrete scenario
`GET /oauth/callback?code=X&state=WRONG` against expected state `RIGHT`. -/
theorem c7_state_mismatch_rejected_witness :
    handle_callback "RIGHT".data "GET" "/oauth/callback?code=X&state=WRONG".data =
      ⟨400, some CallbackOutcome.stateMismatch, false⟩ :=
  c7_state_mismatch_rejected "RIGHT".data "/oauth/callback?code=X&state=WRONG".data
    (by decide) (by decide) (by decide)

/-- First iteration of the retry loop: when the id at the cursor has an auth
manager, the loop returns it at once with the cursor advanced by one modulo
the list length. -/
theorem getNextLoop_hit (st : AccountPool) (n : Nat) (accId : Int)
    (h : st.accountIds.get? st.currentIndex = some accId)
    (hk : accId ∈ st.authKeys) :
    getNextLoop st (n + 1) =
      (some accId,
       { st with currentIndex := (st.currentIndex + 1) % st.accountIds.length }) := by
  have h2 : st.accountIds[st.currentIndex]? = some accId := by
    simpa [← List.get?_eq_getElem?] using h
  simp [getNextLoop, h2, hk]

/-- `get_next_account` on a non-empty pool whose listed ids all have auth
managers: the pre-advance cursor entry is returned and the cursor advances
by one modulo the list length. -/
theorem get_next_account_spec (st : AccountPool) (hne : st.accountIds ≠ [])
    (hidx : st.currentIndex < st.accountIds.length)
    (hsub : ∀ i ∈ st.accountIds, i ∈ st.authKeys) :
    get_next_account st =
      (st.accountIds.get? st.currentIndex,
       { st with currentIndex := (st.currentIndex + 1) % st.accountIds.length }) := by
  have hget : st.accountIds.get? st.currentIndex =
      some (st.accountIds.get ⟨st.currentIndex, hidx⟩) :=
    List.get?_eq_get hidx
  obtain ⟨m, hm⟩ : ∃ m, st.accountIds.length = m + 1 :=
    Nat.exists_eq_succ_of_ne_zero (Nat.pos_iff_ne_zero.mp (List.length_pos.mpr hne))
  have hk : st.accountIds.get ⟨st.currentIndex, hidx⟩ ∈ st.authKeys :=
    hsub _ (st.accountIds.get_mem _ _)
  have hmod : (st.currentIndex + 1) % st.accountIds.length =
      (st.currentIndex + 1) % (m + 1) := by rw [hm]
  rw [get_next_account, if_neg (by simpa [List.isEmpty_iff] using hne), hm,
    getNextLoop_hit st m _ hget hk, hget, hmod]

/-- C4: on a pool in which every listed id has an auth manager,
`get_next_account` returns the record at the pre-advance cursor position and
advances the cursor by exactly one modulo the list length; five successive
calls on the pool loaded with ids `[10, 11, 12]` return
`10, 11, 12, 10, 11`; and the in-memory part of `remove_account` resets the
cursor to 0 whenever it would fall outside the shortened list. -/
theorem c4_round_robin :
    (∀ st : AccountPool, st.accountIds ≠ [] →
      st.currentIndex < st.accountIds.length →
      (∀ i ∈ st.accountIds, i ∈ st.authKeys) →
      get_next_account st =
        (st.accountIds.get? st.currentIndex,
         { st with currentIndex := (st.currentIndex + 1) % st.accountIds.length })) ∧
    (runNextAccounts (load_accounts_pool [10, 11, 12]) 5).1 =
      [some 10, some 11, some 12, some 10, some 11] ∧
    (∀ (st : AccountPool) (accId : Int), accId ∈ st.accountIds →
      (st.accountIds.erase accId).length ≤ st.currentIndex →
      (remove_account_pool st accId).currentIndex = 0) := by
  refine ⟨?_, by decide, ?_⟩
  · intro st hne hidx hsub
    exact get_next_account_spec st hne hidx hsub
  · intro st accId hmem hle
    unfold remove_account_pool
    rw [if_pos hmem]
    show (if (st.accountIds.erase accId).length ≤ st.currentIndex then 0
      else st.currentIndex) = 0
    exact if_pos hle

/-- C4 witness: the cursor contract applied to the concrete pool
`ids = [10, 11, 12]` at cursor 1, and the cursor reset applied to a pool
whose cursor would fall outside the shortened list. -/
theorem c4_round_robin_witness :
    get_next_account ⟨[10, 11, 12], [10, 11, 12], 1⟩ =
      (([10, 11, 12] : List Int).get? 1,
       { accountIds := [10, 11, 12], authKeys := [10, 11, 12],
         currentIndex := (1 + 1) % ([10, 11, 12] : List Int).length }) ∧
    (remove_account_pool ⟨[10, 11, 12], [10, 11, 12], 2⟩ 12).currentIndex = 0 :=
  ⟨c4_round_robin.1 ⟨[10, 11, 12], [10, 11, 12], 1⟩ (by decide) (by decide)
      (by decide),
   c4_round_robin.2.2 ⟨[10, 11, 12], [10, 11, 12], 2⟩ 12 (by decide) (by decide)⟩

/-- The cursor-reset idiom used by removal and deactivation restores the
index part of the pool invariant unconditionally. -/
theorem poolWF_of_reset (ids keys : List Int) (idx : Nat)
    (hn : ids.Nodup) (hm : ∀ i ∈ ids, i ∈ keys) :
    poolWF ⟨ids, keys, if ids.length ≤ idx then 0 else idx⟩ := by
  refine ⟨hn, hm, ?_⟩
  by_cases h : ids.length ≤ idx
  · rw [if_pos h]
    cases hids : ids with
    | nil => exact Or.inr ⟨rfl, rfl⟩
    | cons a t => exact Or.inl (by simp)
  · rw [if_neg h]
    refine Or.inl ?_
    show idx < ids.length
    omega

/-- Erasing an id from both maps preserves the containment between them. -/
theorem mem_keys_after_erase {ids keys : List Int} (hn : ids.Nodup)
    (hm : ∀ i ∈ ids, i ∈ keys) (accId : Int) :
    ∀ i ∈ ids.erase accId, i ∈ keys.erase accId := by
  intro i hi
  have h2 := (List.Nodup.mem_erase_iff hn).mp hi
  exact (List.mem_erase_of_ne h2.1).mpr (hm i h2.2)

/-- The retry loop only moves the cursor, and keeps it inside the list. -/
theorem getNextLoop_wf : ∀ (n : Nat) (st : AccountPool), poolWF st →
    poolWF (getNextLoop st n).2 := by
  intro n
  induction n with
  | zero => intro st h; simpa [getNextLoop] using h
  | succ k ih =>
    intro st h
    cases hget : st.accountIds[st.currentIndex]? with
    | none => simpa [getNextLoop, hget] using h
    | some accId =>
      have hlt : st.currentIndex < st.accountIds.length := by
        have := List.getElem?_eq_some.mp hget
        exact this.1
      have hwf2 : poolWF
          { st with currentIndex := (st.currentIndex + 1) % st.accountIds.length } :=
        ⟨h.1, h.2.1, Or.inl (Nat.mod_lt _ (by omega))⟩
      by_cases hk : accId ∈ st.authKeys
      · simpa [getNextLoop, hget, hk] using hwf2
      · simpa [getNextLoop, hget, hk] using ih _ hwf2

/-- `load_accounts` establishes the pool invariant. -/
theorem load_accounts_wf (ids : List Int) (hn : ids.Nodup) :
    poolWF (load_accounts_pool ids) := by
  refine ⟨hn, fun i hi => hi, ?_⟩
  cases ids with
  | nil => exact Or.inr ⟨rfl, rfl⟩
  | cons a t =>
    refine Or.inl ?_
    show 0 < (a :: t).length
    simp

/-- `add_account` with a fresh id preserves the pool invariant. -/
theorem add_account_wf (st : AccountPool) (accId : Int) (h : poolWF st)
    (hnotin : accId ∉ st.accountIds) : poolWF (add_account_pool st accId) := by
  obtain ⟨hn, hm, hidx⟩ := h
  refine ⟨?_, ?_, ?_⟩
  · show (st.accountIds ++ [accId]).Nodup
    rw [List.nodup_append]
    refine ⟨hn, List.nodup_singleton _, ?_⟩
    intro x hx hx2
    rw [List.mem_singleton] at hx2
    subst hx2
    exact hnotin hx
  · intro i hi
    rw [show (add_account_pool st accId).accountIds = st.accountIds ++ [accId] from rfl]
      at hi
    show i ∈ if accId ∈ st.authKeys then st.authKeys else st.authKeys ++ [accId]
    rcases List.mem_append.mp hi with h1 | h1
    · by_cases hk : accId ∈ st.authKeys
      · rw [if_pos hk]; exact hm i h1
      · rw [if_neg hk]; exact List.mem_append_left _ (hm i h1)
    · rw [List.mem_singleton] at h1
      subst h1
      by_cases hk : i ∈ st.authKeys
      · rw [if_pos hk]; exact hk
      · rw [if_neg hk]; exact List.mem_append_right _ (List.mem_singleton_self i)
  · refine Or.inl ?_
    show st.currentIndex < (st.accountIds ++ [accId]).length
    rcases hidx with h1 | h1
    · simp only [List.length_append, List.length_singleton]
      omega
    · rw [h1.2, h1.1]
      simp

/-- `remove_account` preserves the pool invariant. -/
theorem remove_account_wf (st : AccountPool) (accId : Int) (h : poolWF st) :
    poolWF (remove_account_pool st accId) := by
  obtain ⟨hn, hm, hidx⟩ := h
  unfold remove_account_pool
  by_cases hmem : accId ∈ st.accountIds
  · rw [if_pos hmem]
    refine poolWF_of_reset _ _ _ (hn.erase accId) ?_
    intro i hi
    by_cases hk : accId ∈ st.authKeys
    · rw [if_pos hk]
      exact mem_keys_after_erase hn hm accId i hi
    · rw [if_neg hk]
      exact hm i (List.mem_of_mem_erase hi)
  · rw [if_neg hmem]
    refine ⟨hn, ?_, hidx⟩
    intro i hi
    have hne : i ≠ accId := fun he => hmem (he ▸ hi)
    by_cases hk : accId ∈ st.authKeys
    · rw [if_pos hk]
      exact (List.mem_erase_of_ne hne).mpr (hm i hi)
    · rw [if_neg hk]
      exact hm i hi

/-- The database-manager activation toggle preserves the pool invariant. -/
theorem update_account_active_wf (st : AccountPool) (accId : Int) (b : Bool)
    (h : poolWF st) : poolWF (update_account_active_pool st accId b) := by
  obtain ⟨hn, hm, hidx⟩ := h
  unfold update_account_active_pool
  cases b with
  | true =>
    rw [if_pos rfl]
    by_cases hc : (!(st.accountIds.contains accId) && st.authKeys.contains accId) = true
    · rw [if_pos hc]
      simp only [Bool.and_eq_true, Bool.not_eq_true'] at hc
      obtain ⟨hc1, hc2⟩ := hc
      have hc1m : accId ∉ st.accountIds := by simpa using hc1
      have hc2m : accId ∈ st.authKeys := by simpa using hc2
      refine ⟨?_, ?_, ?_⟩
      · show (st.accountIds ++ [accId]).Nodup
        rw [List.nodup_append]
        refine ⟨hn, List.nodup_singleton _, ?_⟩
        intro x hx hx2
        rw [List.mem_singleton] at hx2
        subst hx2
        exact hc1m hx
      · intro i hi
        show i ∈ st.authKeys
        rcases List.mem_append.mp hi with h1 | h1
        · exact hm i h1
        · rw [List.mem_singleton] at h1
          subst h1
          exact hc2m
      · refine Or.inl ?_
        show st.currentIndex < (st.accountIds ++ [accId]).length
        rcases hidx with h1 | h1
        · simp only [List.length_append, List.length_singleton]
          omega
        · rw [h1.2, h1.1]
          simp
    · rw [if_neg hc]
      exact ⟨hn, hm, hidx⟩
  | false =>
    rw [if_neg (by simp)]
    by_cases hmem : accId ∈ st.accountIds
    · rw [if_pos hmem]
      refine poolWF_of_reset _ _ _ (hn.erase accId) ?_
      intro i hi
      exact hm i (List.mem_of_mem_erase hi)
    · rw [if_neg hmem]
      exact ⟨hn, hm, hidx⟩

/-- The local-manager activation toggle preserves the pool invariant. -/
theorem local_update_account_active_wf (st : AccountPool) (accId : Int) (b : Bool)
    (h : poolWF st) : poolWF (local_update_account_active st accId b) := by
  obtain ⟨hn, hm, hidx⟩ := h
  unfold local_update_account_active
  cases b with
  | true =>
    rw [if_pos rfl]
    by_cases hmem : accId ∈ st.accountIds
    · rw [if_pos hmem]
      exact ⟨hn, hm, hidx⟩
    · rw [if_neg hmem]
      refine ⟨?_, ?_, ?_⟩
      · show (st.accountIds ++ [accId]).Nodup
        rw [List.nodup_append]
        refine ⟨hn, List.nodup_singleton _, ?_⟩
        intro x hx hx2
        rw [List.mem_singleton] at hx2
        subst hx2
        exact hmem hx
      · intro i hi
        show i ∈ if accId ∈ st.authKeys then st.authKeys else st.authKeys ++ [accId]
        rcases List.mem_append.mp hi with h1 | h1
        · by_cases hk : accId ∈ st.authKeys
          · rw [if_pos hk]; exact hm i h1
          · rw [if_neg hk]; exact List.mem_append_left _ (hm i h1)
        · rw [List.mem_singleton] at h1
          subst h1
          by_cases hk : i ∈ st.authKeys
          · rw [if_pos hk]; exact hk
          · rw [if_neg hk]; exact List.mem_append_right _ (List.mem_singleton_self i)
      · refine Or.inl ?_
        show st.currentIndex < (st.accountIds ++ [accId]).length
        rcases hidx with h1 | h1
        · simp only [List.length_append, List.length_singleton]
          omega
        · rw [h1.2, h1.1]
          simp
  | false =>
    rw [if_neg (by simp)]
    refine poolWF_of_reset _ _ _ ?_ ?_
    · by_cases hmem : accId ∈ st.accountIds
      · rw [if_pos hmem]; exact hn.erase accId
      · rw [if_neg hmem]; exact hn
    · intro i hi
      by_cases hmem : accId ∈ st.accountIds
      · rw [if_pos hmem] at hi
        by_cases hk : accId ∈ st.authKeys
        · rw [if_pos hk]
          exact mem_keys_after_erase hn hm accId i hi
        · rw [if_neg hk]
          exact hm i (List.mem_of_mem_erase hi)
      · rw [if_neg hmem] at hi
        have hne : i ≠ accId := fun he => hmem (he ▸ hi)
        by_cases hk : accId ∈ st.authKeys
        · rw [if_pos hk]
          exact (List.mem_erase_of_ne hne).mpr (hm i hi)
        · rw [if_neg hk]
          exact hm i hi

/-- The local load establishes the pool invariant when the stored ids are
distinct. -/
theorem local_load_accounts_wf (records : List (Int × Bool))
    (hn : (records.map (fun r => r.1)).Nodup) :
    poolWF (local_load_accounts records) := by
  have hsub : ((records.filter (fun r => r.2)).map (fun r => r.1)).Sublist
      (records.map (fun r => r.1)) :=
    (List.filter_sublist records).map (fun r => r.1)
  refine ⟨hn.sublist hsub, fun i hi => hi, ?_⟩
  cases hval : (records.filter (fun r => r.2)).map (fun r => r.1) with
  | nil => exact Or.inr ⟨hval, rfl⟩
  | cons a t =>
    refine Or.inl ?_
    show 0 < ((records.filter (fun r => r.2)).map (fun r => r.1)).length
    rw [hval]
    simp

/-- `get_next_account` preserves the pool invariant. -/
theorem get_next_account_wf (st : AccountPool) (h : poolWF st) :
    poolWF (get_next_account st).2 := by
  unfold get_next_account
  by_cases he : st.accountIds.isEmpty
  · rw [if_pos he]
    exact h
  · rw [if_neg he]
    exact getNextLoop_wf _ st h

/-- C10: in both pool implementations, every pool operation — load, add,
remove, and the activation toggle — preserves the invariant that the
round-robin list has distinct ids each keyed in `_auth_managers` (with the
cursor inside the list); consequently, on a non-empty pool satisfying the
invariant, `get_next_account` succeeds on its first loop iteration,
returning the entry at the pre-advance cursor — never skipping an id and
never returning `None`. -/
theorem c10_pool_invariant_preserved :
    (∀ ids : List Int, ids.Nodup → poolWF (load_accounts_pool ids)) ∧
    (∀ (st : AccountPool) (accId : Int), poolWF st → accId ∉ st.accountIds →
      poolWF (add_account_pool st accId)) ∧
    (∀ (st : AccountPool) (accId : Int), poolWF st →
      poolWF (remove_account_pool st accId)) ∧
    (∀ (st : AccountPool) (accId : Int) (b : Bool), poolWF st →
      poolWF (update_account_active_pool st accId b)) ∧
    (∀ (st : AccountPool) (accId : Int) (b : Bool), poolWF st →
      poolWF (local_update_account_active st accId b)) ∧
    (∀ records : List (Int × Bool), (records.map (fun r => r.1)).Nodup →
      poolWF (local_load_accounts records)) ∧
    (∀ st : AccountPool, poolWF st → poolWF (get_next_account st).2) ∧
    (∀ st : AccountPool, poolWF st → st.accountIds ≠ [] →
      (get_next_account st).1 = st.accountIds.get? st.currentIndex ∧
      ((get_next_account st).1).isSome = true) := by
  refine ⟨load_accounts_wf, add_account_wf, remove_account_wf,
    update_account_active_wf, local_update_account_active_wf,
    local_load_accounts_wf, get_next_account_wf, ?_⟩
  intro st h hne
  have hidx : st.currentIndex < st.accountIds.length := by
    rcases h.2.2 with h1 | h1
    · exact h1
    · exact absurd h1.1 hne
  have hspec := get_next_account_spec st hne hidx h.2.1
  rw [hspec]
  refine ⟨rfl, ?_⟩
  rw [List.get?_eq_get hidx]
  rfl

/-- C10 witness: the invariant holds along a concrete operation sequence —
load `[1, 2]`, add `3`, deactivate `2`, remove `1`, re-activate `2` — and
`get_next_account` on the resulting pool returns the pre-advance cursor
entry. -/
theorem c10_pool_invariant_preserved_witness :
    poolWF (load_accounts_pool [1, 2]) ∧
    poolWF (add_account_pool (load_accounts_pool [1, 2]) 3) ∧
    poolWF (update_account_active_pool
      (add_account_pool (load_accounts_pool [1, 2]) 3) 2 false) ∧
    poolWF (remove_account_pool
      (update_account_active_pool
        (add_account_pool (load_accounts_pool [1, 2]) 3) 2 false) 1) ∧
    poolWF (local_update_account_active
      (remove_account_pool
        (update_account_active_pool
          (add_account_pool (load_accounts_pool [1, 2]) 3) 2 false) 1) 2 true) ∧
    poolWF (local_load_accounts [(4, true), (5, false), (6, true)]) ∧
    poolWF (get_next_account (load_accounts_pool [1, 2])).2 ∧
    ((get_next_account (load_accounts_pool [1, 2])).1 =
        ([1, 2] : List Int).get? 0 ∧
      ((get_next_account (load_accounts_pool [1, 2])).1).isSome = true) := by
  have h0 := c10_pool_invariant_preserved.1 [1, 2] (by decide)
  have h1 := c10_pool_invariant_preserved.2.1 (load_accounts_pool [1, 2]) 3 h0 (by decide)
  have h2 := c10_pool_invariant_preserved.2.2.2.1 _ 2 false h1
  have h3 := c10_pool_invariant_preserved.2.2.1 _ 1 h2
  have h4 := c10_pool_invariant_preserved.2.2.2.2.1 _ 2 true h3
  have h5 := c10_pool_invariant_preserved.2.2.2.2.2.1 [(4, true), (5, false), (6, true)]
    (by decide)
  have h6 := c10_pool_invariant_preserved.2.2.2.2.2.2.1 (load_accounts_pool [1, 2]) h0
  have h7 := c10_pool_invariant_preserved.2.2.2.2.2.2.2 (load_accounts_pool [1, 2]) h0
    (by decide)
  exact ⟨h0, h1, h2, h3, h4, h5, h6, h7⟩

/-- The dedup loop agrees with adjacent-duplicate removal: threading
`last_content = some a` emits exactly the destuttered tail after `a`. -/
theorem contentLoop_destutter (events : List ContentEvent) :
    ∀ a : String, (∀ e ∈ events, e.followupPrompt = false) →
      List.destutter' (fun x y : String => x ≠ y) a
          (events.map (fun e => e.content)) =
        a :: contentLoop (some a) events := by
  induction events with
  | nil => intro a _; simp [contentLoop]
  | cons e rest ih =>
    intro a h
    have hfp : e.followupPrompt = false := h e (by simp)
    have hrest : ∀ x ∈ rest, x.followupPrompt = false := fun x hx => h x (by simp [hx])
    by_cases hc : e.content = a
    · rw [List.map_cons, List.destutter'_cons, if_neg (by simp [hc])]
      rw [ih a hrest]
      have : contentLoop (some a) (e :: rest) = contentLoop (some a) rest := by
        simp [contentLoop, process_content_event, hfp, hc]
      rw [this]
    · rw [List.map_cons, List.destutter'_cons, if_pos (by simp [Ne, hc]; tauto)]
      rw [ih e.content hrest]
      have hne : ¬(a = e.content) := fun hh => hc hh.symm
      have : contentLoop (some a) (e :: rest) =
          e.content :: contentLoop (some e.content) rest := by
        simp [contentLoop, process_content_event, hfp, hne]
      rw [this]

/-- C9: on any sequence of content events (no `followupPrompt`), the parser
emits a payload exactly when it differs from the immediately preceding
content event's payload — the emitted deltas are the adjacent-duplicate-free
destuttering of the payload sequence, so a run of consecutive identical
payloads produces exactly one downstream text delta. -/
theorem c9_content_dedup :
    ∀ events : List ContentEvent, (∀ e ∈ events, e.followupPrompt = false) →
      process_content_stream events =
        List.destutter (fun x y : String => x ≠ y)
          (events.map (fun e => e.content)) := by
  intro events h
  cases events with
  | nil => rfl
  | cons e rest =>
    have hfp : e.followupPrompt = false := h e (by simp)
    have hrest : ∀ x ∈ rest, x.followupPrompt = false := fun x hx => h x (by simp [hx])
    have hfirst : process_content_stream (e :: rest) =
        e.content :: contentLoop (some e.content) rest := by
      simp [process_content_stream, contentLoop, process_content_event, hfp]
    rw [hfirst, List.map_cons]
    show e.content :: contentLoop (some e.content) rest =
      List.destutter' (fun x y : String => x ≠ y) e.content
        (rest.map (fun e => e.content))
    rw [contentLoop_destutter rest e.content hrest]

/-- C9 witness: the spec's duplicate pair `a{b}` `a{b}` collapses to one
delta, and a longer alternating stream keeps the non-adjacent repeats. -/
theorem c9_content_dedup_witness :
    process_content_stream
        [⟨"a\x7bb\x7d", false⟩, ⟨"a\x7bb\x7d", false⟩] =
      List.destutter (fun x y : String => x ≠ y) ["a\x7bb\x7d", "a\x7bb\x7d"] ∧
    process_content_stream
        [⟨"x", false⟩, ⟨"x", false⟩, ⟨"y", false⟩, ⟨"x", false⟩] =
      List.destutter (fun x y : String => x ≠ y) ["x", "x", "y", "x"] :=
  ⟨c9_content_dedup [⟨"a\x7bb\x7d", false⟩, ⟨"a\x7bb\x7d", false⟩] (by decide),
   c9_content_dedup [⟨"x", false⟩, ⟨"x", false⟩, ⟨"y", false⟩, ⟨"x", false⟩] (by decide)⟩

/-- A successful lookup exposes its binding as a member of the list. -/
theorem lookup_mem {β : Type} (l : List (String × β)) (key : String) (e : β)
    (h : List.lookup key l = some e) : (key, e) ∈ l := by
  induction l with
  | nil => simp [List.lookup] at h
  | cons kv t ih =>
    rw [List.lookup] at h
    by_cases hk : (key == kv.1) = true
    · rw [hk] at h
      simp only [Option.some.injEq] at h
      have hkey : key = kv.1 := by simpa using hk
      have : (key, e) = kv := by
        cases kv
        simp only [Prod.mk.injEq]
        exact ⟨hkey, h.symm⟩
      rw [this]
      exact List.mem_cons_self _ _
    · rw [Bool.not_eq_true] at hk
      rw [hk] at h
      exact List.mem_cons_of_mem _ (ih h)

/-- Lookup misses when no binding carries the key. -/
theorem lookup_eq_none_of_keys {β : Type} (l : List (String × β)) (key : String)
    (h : ∀ kv ∈ l, kv.1 ≠ key) : List.lookup key l = none := by
  induction l with
  | nil => rfl
  | cons kv t ih =>
    rw [List.lookup]
    have hne : (key == kv.1) = false := by
      simpa using fun he => h kv (List.mem_cons_self _ _) he.symm
    rw [hne]
    exact ih fun x hx => h x (List.mem_cons_of_mem _ hx)

/-- Deleting a key from the map makes its lookup miss. -/
theorem lookup_filter_not_key {β : Type} (l : List (String × β)) (key : String) :
    List.lookup key (l.filter (fun kv => !(kv.1 == key))) = none := by
  apply lookup_eq_none_of_keys
  intro kv hkv
  have := (List.mem_filter.mp hkv).2
  simpa using this

/-- On a map with distinct keys, filtering commutes with lookup: the binding
survives exactly when it passes the filter. -/
theorem lookup_filter_nodup {β : Type} (l : List (String × β)) (key : String) (e : β)
    (p : String × β → Bool)
    (hn : (l.map Prod.fst).Nodup) (h : List.lookup key l = some e) :
    List.lookup key (l.filter p) = if p (key, e) then some e else none := by
  induction l with
  | nil => simp [List.lookup] at h
  | cons kv t ih =>
    rw [List.lookup] at h
    rw [List.map_cons, List.nodup_cons] at hn
    by_cases hk : (key == kv.1) = true
    · rw [hk] at h
      simp only [Option.some.injEq] at h
      have hkey : key = kv.1 := by simpa using hk
      have hkv : kv = (key, e) := by
        cases kv
        simp only [Prod.mk.injEq]
        exact ⟨hkey.symm, h⟩
      subst hkv
      by_cases hp : p (key, e) = true
      · rw [List.filter_cons_of_pos hp, if_pos hp, List.lookup]
        simp
      · rw [Bool.not_eq_true] at hp
        rw [List.filter_cons_of_neg (by simp [hp]), if_neg (by simp [hp])]
        apply lookup_eq_none_of_keys
        intro x hx hxk
        have hxm : x.1 ∈ t.map Prod.fst :=
          List.mem_map_of_mem Prod.fst (List.mem_of_mem_filter hx)
        rw [hxk] at hxm
        exact hn.1 hxm
    · rw [Bool.not_eq_true] at hk
      rw [hk] at h
      by_cases hp : p kv = true
      · rw [List.filter_cons_of_pos hp, List.lookup, hk]
        exact ih hn.2 h
      · rw [Bool.not_eq_true] at hp
        rw [List.filter_cons_of_neg (by simp [hp])]
        exact ih hn.2 h

/-- C8: (1) a cached entry idle for more than `CACHE_TTL = 300` seconds is
never returned — the lookup misses and the entry is gone from the map
afterwards; (2) any lookup at least `CACHE_CLEANUP_INTERVAL = 600` seconds
after the previous sweep leaves no entry idle for more than 300 seconds in
the map. -/
theorem c8_cache_eviction :
    (∀ (st : AuthCacheState) (now : Int) (key : String) (e : CacheEntry),
      (st.entries.map Prod.fst).Nodup →
      List.lookup key st.entries = some e →
      CACHE_TTL < now - e.last_used →
      (get_cached_auth_manager now key st).1 = none ∧
      List.lookup key (get_cached_auth_manager now key st).2.entries = none) ∧
    (∀ (st : AuthCacheState) (now : Int) (key : String),
      CACHE_CLEANUP_INTERVAL ≤ now - st.lastCleanup →
      ∀ kv ∈ (get_cached_auth_manager now key st).2.entries,
        now - kv.2.last_used ≤ CACHE_TTL) := by
  constructor
  · intro st now key e hn hl hstale
    by_cases hsw : now - st.lastCleanup < CACHE_CLEANUP_INTERVAL
    · have hclean : cleanup_cache now st = st := by
        rw [cleanup_cache, if_pos hsw]
      unfold get_cached_auth_manager
      rw [hclean]
      simp only [hl]
      rw [if_pos hstale]
      exact ⟨by trivial, lookup_filter_not_key st.entries key⟩
    · have hclean : cleanup_cache now st =
          ⟨st.entries.filter (fun kv => decide (now - kv.2.last_used ≤ CACHE_TTL)), now⟩ := by
        rw [cleanup_cache, if_neg hsw]
      have hlf := lookup_filter_nodup st.entries key e
        (fun kv => decide (now - kv.2.last_used ≤ CACHE_TTL)) hn hl
      have hcond : ¬((fun kv : String × CacheEntry =>
          decide (now - kv.2.last_used ≤ CACHE_TTL)) (key, e) = true) := by
        simp only [decide_eq_true_eq]
        exact fun hc => absurd hstale (not_lt.mpr hc)
      rw [if_neg hcond] at hlf
      unfold get_cached_auth_manager
      rw [hclean]
      simp only [hlf]
      exact ⟨by trivial, by trivial⟩
  · intro st now key hsw kv hkv
    have hclean : cleanup_cache now st =
        ⟨st.entries.filter (fun kv => decide (now - kv.2.last_used ≤ CACHE_TTL)), now⟩ := by
      rw [cleanup_cache, if_neg (not_lt.mpr hsw)]
    unfold get_cached_auth_manager at hkv
    rw [hclean] at hkv
    cases hl : List.lookup key
        (st.entries.filter (fun kv => decide (now - kv.2.last_used ≤ CACHE_TTL))) with
    | none =>
      simp only [hl] at hkv
      have := (List.mem_filter.mp hkv).2
      simpa using this
    | some e =>
      simp only [hl] at hkv
      by_cases hst : CACHE_TTL < now - e.last_used
      · rw [if_pos hst] at hkv
        have h1 := List.mem_of_mem_filter hkv
        have := (List.mem_filter.mp h1).2
        simpa using this
      · rw [if_neg hst] at hkv
        simp only [List.mem_map] at hkv
        rcases hkv with ⟨kv2, hkv2, hf⟩
        by_cases hk : (kv2.1 == key) = true
        · rw [if_pos hk] at hf
          rw [← hf]
          show now - now ≤ CACHE_TTL
          simp [CACHE_TTL]
        · rw [Bool.not_eq_true] at hk
          rw [if_neg (by simp [hk])] at hf
          rw [← hf]
          have := (List.mem_filter.mp hkv2).2
          simpa using this

/-- Concrete cache for the C8 witness: the entry under `h1` idle since 100,
`h2` idle since 950, last sweep at 200, looked up at 1000. -/
def c8Cache : AuthCacheState :=
  { entries := [("h1", ⟨50, 100⟩), ("h2", ⟨900, 950⟩)], lastCleanup := 200 }

/-- C8 witness: at `now = 1000` the entry idle since 100 (idle 900 s > 300 s)
is not returned and is absent afterwards, and the triggered sweep leaves no
entry idle beyond the TTL. -/
theorem c8_cache_eviction_witness :
    ((get_cached_auth_manager 1000 "h1" c8Cache).1 = none ∧
      List.lookup "h1" (get_cached_auth_manager 1000 "h1" c8Cache).2.entries = none) ∧
    (∀ kv ∈ (get_cached_auth_manager 1000 "h1" c8Cache).2.entries,
      1000 - kv.2.last_used ≤ CACHE_TTL) :=
  ⟨c8_cache_eviction.1 c8Cache 1000 "h1" ⟨50, 100⟩ (by decide) (by decide) (by decide),
   c8_cache_eviction.2 c8Cache 1000 "h1" (by decide)⟩

/-- Scanning one more character composes with `braceStep`. -/
theorem scanFrom_cons (st : BraceState) (c : Char) (l : List Char) (n : Nat) :
    scanFrom st ((c :: l).take (n + 1)) = scanFrom (braceStep st c) (l.take n) := by
  rw [List.take_succ_cons]
  rfl

/-- A close at position 0 is a direct condition on the state and character. -/
theorem closesAt_zero (st : BraceState) (c : Char) (rest : List Char) :
    closesAt st (c :: rest) 0 ↔
      st.escNext = false ∧ st.inString = false ∧ st.depth = 1 ∧ c = '\x7d' := by
  unfold closesAt
  constructor
  · rintro ⟨h, h1, h2, h3, h4⟩
    exact ⟨h1, h2, h3, h4⟩
  · rintro ⟨h1, h2, h3, h4⟩
    exact ⟨by simp, h1, h2, h3, h4⟩

/-- A close at a later position is a close of the tail from the stepped
state. -/
theorem closesAt_cons (st : BraceState) (c : Char) (rest : List Char) (n : Nat) :
    closesAt st (c :: rest) (n + 1) ↔ closesAt (braceStep st c) rest n := by
  unfold closesAt
  constructor
  · rintro ⟨h, h1, h2, h3, h4⟩
    rw [scanFrom_cons] at h1 h2 h3
    refine ⟨by simpa using h, h1, h2, h3, ?_⟩
    simpa using h4
  · rintro ⟨h, h1, h2, h3, h4⟩
    rw [← scanFrom_cons st c rest n] at h1 h2 h3
    refine ⟨by simpa using h, h1, h2, h3, ?_⟩
    simpa using h4

/-- When position 0 does not close, the loop takes one `braceStep` and
advances the running index. -/
theorem braceLoop_cons_step (st : BraceState) (c : Char) (rest : List Char) (i : Nat)
    (h0 : ¬ closesAt st (c :: rest) 0) :
    braceLoop st i (c :: rest) = braceLoop (braceStep st c) (i + 1) rest := by
  rw [closesAt_zero] at h0
  by_cases hEsc : st.escNext = true
  · simp [braceLoop, braceStep, hEsc]
  · rw [Bool.not_eq_true] at hEsc
    by_cases hBs : c = '\\'
    · by_cases hIn : st.inString = true
      · simp [braceLoop, braceStep, hEsc, hBs, hIn]
      · rw [Bool.not_eq_true] at hIn
        have f1 : ('\\' : Char) ≠ '"' := by decide
        have f2 : ('\\' : Char) ≠ '\x7b' := by decide
        have f3 : ('\\' : Char) ≠ '\x7d' := by decide
        subst hBs
        simp [braceLoop, braceStep, hEsc, hIn, f1, f2, f3]
    · by_cases hQ : c = '"'
      · simp [braceLoop, braceStep, hEsc, hBs, hQ]
      · by_cases hIn : st.inString = true
        · simp [braceLoop, braceStep, hEsc, hBs, hQ, hIn]
        · rw [Bool.not_eq_true] at hIn
          by_cases hOb : c = '\x7b'
          · simp [braceLoop, braceStep, hEsc, hBs, hQ, hIn, hOb]
          · by_cases hCb : c = '\x7d'
            · have hdep : st.depth ≠ 1 := fun h => h0 ⟨hEsc, hIn, h, hCb⟩
              have hd : ¬(st.depth - 1 = 0) := fun h => hdep (by omega)
              simp [braceLoop, braceStep, hEsc, hBs, hQ, hIn, hOb, hCb, hd]
            · simp [braceLoop, braceStep, hEsc, hBs, hQ, hIn, hOb, hCb]

/-- When position 0 closes, the loop returns the running index at once. -/
theorem braceLoop_cons_ret (st : BraceState) (c : Char) (rest : List Char) (i : Nat)
    (h0 : closesAt st (c :: rest) 0) :
    braceLoop st i (c :: rest) = some i := by
  rw [closesAt_zero] at h0
  obtain ⟨h1, h2, h3, h4⟩ := h0
  subst h4
  have f1 : ('\x7d' : Char) ≠ '\\' := by decide
  have f2 : ('\x7d' : Char) ≠ '"' := by decide
  have f3 : ('\x7d' : Char) ≠ '\x7b' := by decide
  simp [braceLoop, h1, h2, h3, f1, f2, f3]

/-- The loop returns `none` exactly on inputs with no closing position. -/
theorem braceLoop_none : ∀ (l : List Char) (st : BraceState) (i : Nat),
    (∀ n, ¬ closesAt st l n) → braceLoop st i l = none := by
  intro l
  induction l with
  | nil => intro st i _; rfl
  | cons c rest ih =>
    intro st i h
    rw [braceLoop_cons_step st c rest i (h 0)]
    exact ih _ _ (fun n hn => h (n + 1) ((closesAt_cons st c rest n).mpr hn))

/-- The loop returns the first closing position, offset by the running
index. -/
theorem braceLoop_some : ∀ (l : List Char) (st : BraceState) (i n : Nat),
    closesAt st l n → (∀ m < n, ¬ closesAt st l m) →
    braceLoop st i l = some (i + n) := by
  intro l
  induction l with
  | nil =>
    intro st i n hn _
    exact absurd hn (by simp [closesAt])
  | cons c rest ih =>
    intro st i n hn hmin
    cases n with
    | zero =>
      rw [braceLoop_cons_ret st c rest i hn, Nat.add_zero]
    | succ k =>
      have h0 : ¬ closesAt st (c :: rest) 0 := hmin 0 (Nat.succ_pos k)
      rw [braceLoop_cons_step st c rest i h0]
      have hk : closesAt (braceStep st c) rest k := (closesAt_cons st c rest k).mp hn
      have hmin2 : ∀ m < k, ¬ closesAt (braceStep st c) rest m := fun m hm hcm =>
        hmin (m + 1) (by omega) ((closesAt_cons st c rest m).mpr hcm)
      rw [ih _ _ _ hk hmin2]
      congr 1
      omega

/-- C5: `find_matching_brace` is correct for every string and every start
position at an opening brace: it returns `-1` exactly when no position
closes the brace under the string-aware counting rules, and otherwise
returns the first closing position; in particular, on the eleven characters
of the spec's example object it returns 10. -/
theorem c5_find_matching_brace_correct :
    (∀ (text : List Char) (p : Nat) (hp : p < text.length),
      text.get ⟨p, hp⟩ = '\x7b' →
      (((∀ j, ¬ isMatchingClose text p j) → find_matching_brace text p = -1) ∧
       (∀ j, isMatchingClose text p j → find_matching_brace text p = (j : Int)))) ∧
    find_matching_brace "\x7b\"a\": \"\x7b\x7d\"\x7d".data 0 = 10 := by
  refine ⟨?_, by decide⟩
  intro text p hp hb
  have hfind : find_matching_brace text p =
      match braceLoop ⟨0, false, false⟩ p (List.drop p text) with
      | some i => (i : Int)
      | none => -1 := by
    have hbeq : (text.get ⟨p, hp⟩ == '\x7b') = true := by
      rw [beq_iff_eq]
      exact hb
    rw [find_matching_brace, dif_pos hp, if_pos hbeq]
  constructor
  · intro hno
    have hnone : ∀ n, ¬ closesAt ⟨0, false, false⟩ (List.drop p text) n := by
      intro n hn
      have hex : ∃ m, closesAt ⟨0, false, false⟩ (List.drop p text) m := ⟨n, hn⟩
      refine hno (p + Nat.find hex) ⟨Nat.le_add_right p _, ?_, ?_⟩
      · rw [Nat.add_sub_cancel_left]
        exact Nat.find_spec hex
      · rw [Nat.add_sub_cancel_left]
        exact fun i hi => Nat.find_min hex hi
    rw [hfind, braceLoop_none _ _ _ hnone]
  · intro j hj
    obtain ⟨hpj, hcl, hmin⟩ := hj
    rw [hfind, braceLoop_some (List.drop p text) ⟨0, false, false⟩ p (j - p) hcl hmin]
    have : p + (j - p) = j := by omega
    rw [this]

/-- C5 witness: the correctness theorem applied to the example string at
position 0 with the concrete close at position 10. -/
theorem c5_find_matching_brace_correct_witness :
    find_matching_brace "\x7b\"a\": \"\x7b\x7d\"\x7d".data 0 = (10 : Int) :=
  (c5_find_matching_brace_correct.1 "\x7b\"a\": \"\x7b\x7d\"\x7d".data 0
    (by decide) (by decide)).2 10 (by decide)
